import Mathlib

/-!
Shallow embedding of `beetsplug/originquery.py` (the beets-originquery plugin).

The plugin reads a sidecar "origin" metadata file, extracts field values with
per-field patterns, compares them to the tagged metadata of the items being
imported, detects conflicts on catalog number and media, and conditionally
overwrites item fields with the origin values.

Modelling conventions:
- Python strings are Lean `String`s; Python truthiness of a string is `≠ ""`.
- `re.split("[,/]", v)[0]` is the prefix of `v` before the first `,` or `/`,
  i.e. `takeWhile` on the non-separator predicate; `.strip()` is `pyStrip`.
- `catno.upper().replace(" ", "").replace("-", "")` is `map Char.toUpper`
  followed by filtering out the space and hyphen characters.
- The regex / jsonpath pattern engines are external libraries; a compiled text
  pattern is modelled as a function `String → Option String` (the capture of a
  successful anchored match), a compiled path expression as a function
  `JValue → List JValue` (the list of located nodes, as `pattern.find` returns).
- Item field values in beets are strings or ints (`item[tag] = origin_value`
  may store either); an item is a finite map `TagKey → Option FieldVal`,
  `none` meaning the field is absent (`del item["media"]`).
-/

/-- The six keys of `BEETS_TO_LABEL`. -/
inductive TagKey
| media
| year
| country
| label
| catalognum
| albumdisambig
deriving DecidableEq

/-- `CONFLICT_FIELDS = ["catalognum", "media"]`. -/
def CONFLICT_FIELDS : List TagKey := [TagKey.catalognum, TagKey.media]

/-- Python `str.lower()` (ASCII case folding). -/
def pyLower (s : String) : String := String.mk (s.toList.map Char.toLower)

/-- Python `str.strip()`: drop whitespace from both ends. -/
def pyStrip (s : String) : String :=
  String.mk (((s.toList.dropWhile Char.isWhitespace).reverse.dropWhile Char.isWhitespace).reverse)

/-- `normalize_catno`: `catno.upper().replace(" ", "").replace("-", "")`. -/
def normalize_catno (catno : String) : String :=
  String.mk (((catno.toList.map Char.toUpper).filter (fun c => c ≠ ' ')).filter (fun c => c ≠ '-'))

/-- The separator class of `re.split("[,/]", value)`. -/
def isSep (c : Char) : Bool := c = ',' ∨ c = '/'

/-- `sanitize_value(key, value)`. -/
def sanitize_value (key : TagKey) (value : String) : String :=
  if key = TagKey.media ∧ value = "WEB" then "Digital Media"
  else if key = TagKey.catalognum ∨ key = TagKey.label then
    pyStrip (String.mk (value.toList.takeWhile (fun c => !(isSep c))))
  else if key = TagKey.year ∧ value = "0" then ""
  else value

/-- One row of `tag_compare`: tagged value, active flag, origin value. -/
structure CompareEntry where
  tagged : String
  active : Bool
  origin : String
deriving DecidableEq

/-- `tag_compare` holds one entry per `BEETS_TO_LABEL` key. -/
abbrev TagCompare := TagKey → CompareEntry

/-- Point update of a `tag_compare` row. -/
def updateTC (tc : TagCompare) (k : TagKey) (e : CompareEntry) : TagCompare :=
  fun t => if t = k then e else tc t

/-- The initialization loop over `BEETS_TO_LABEL`: tagged from `likelies`,
`active` iff the tag is in `extra_tags`, empty origin. -/
def initTagCompare (extraTags : TagKey → Bool) (likelies : TagKey → String) : TagCompare :=
  fun tag =>
    { tagged := likelies tag, active := extraTags tag, origin := "" }

/-- The conflict test of one match-processing iteration: skipped unless `key`
is a conflict field with non-empty tagged and origin values; catalog numbers
are normalized before comparison. -/
def conflictTriggered (key : TagKey) (tagged origin : String) : Bool :=
  if key ∉ CONFLICT_FIELDS ∨ tagged = "" ∨ origin = "" then false
  else
    let t := if key = TagKey.catalognum then normalize_catno tagged else tagged
    let o := if key = TagKey.catalognum then normalize_catno origin else origin
    t != o

/-- One iteration of the `for key, value in self.match_fn(origin_path)` loop:
a key whose origin slot is already non-empty is skipped; otherwise the
sanitized value is stored and the conflict flag may be raised. -/
def stepMatch (acc : TagCompare × Bool) (kv : TagKey × String) : TagCompare × Bool :=
  if (acc.1 kv.1).origin = "" then
    (updateTC acc.1 kv.1 { acc.1 kv.1 with origin := sanitize_value kv.1 kv.2 },
      acc.2 || conflictTriggered kv.1 (acc.1 kv.1).tagged (sanitize_value kv.1 kv.2))
  else acc

/-- The comparison phase of `import_task_start` (after the origin file is
found): builds `tag_compare` and the conflict flag from the match sequence. -/
def processMatches (extraTags : TagKey → Bool) (likelies : TagKey → String)
    (ms : List (TagKey × String)) : TagCompare × Bool :=
  ms.foldl stepMatch (initTagCompare extraTags likelies, false)

/-- The sanitized value of the first match for `key` whose sanitization is
non-empty, or `""` if there is none: the value `processMatches` ends up
storing as the origin value of `key`. -/
def storedOrigin (key : TagKey) : List (TagKey × String) → String
| [] => ""
| kv :: rest =>
  if kv.1 = key ∧ sanitize_value kv.1 kv.2 ≠ "" then sanitize_value kv.1 kv.2
  else storedOrigin key rest

/-- A beets item field value: `item[tag] = origin_value` stores a string, or
an int for the coerced year. -/
inductive FieldVal
| str (s : String)
| int (n : Int)
deriving DecidableEq

/-- Python truthiness of a field value. -/
def FieldVal.truthy : FieldVal → Bool
| FieldVal.str s => s ≠ ""
| FieldVal.int n => n ≠ 0

/-- Truthiness of `item.get(tag)`: absent fields are falsy. -/
def optTruthy : Option FieldVal → Bool
| none => false
| some v => v.truthy

/-- An item, as the finite map of its field values. -/
abbrev Item := TagKey → Option FieldVal

/-- Python `str.isdigit()` for ASCII digit strings. -/
def isdigit (s : String) : Bool := (!s.toList.isEmpty) && s.toList.all Char.isDigit

/-- Python `int()` of an ASCII digit string. -/
def pyInt (s : String) : Int :=
  Int.ofNat (s.toList.foldl (fun n c => 10 * n + (c.toNat - 48)) 0)

/-- The field-writing loop of the update phase: every `extra_tags` field of
the item is overwritten with the stored origin value; a non-empty year is
coerced to an int when all digits, else to the empty string. -/
def writeFields (extraTags : TagKey → Bool) (tc : TagCompare) (item : Item) : Item :=
  fun tag =>
    if extraTags tag then
      if tag = TagKey.year ∧ (tc tag).origin ≠ "" then
        if isdigit (tc tag).origin then some (FieldVal.int (pyInt (tc tag).origin))
        else some (FieldVal.str "")
      else some (FieldVal.str (tc tag).origin)
    else item tag

/-- The per-item body of the update phase: write the active fields, then the
media-removal workaround — unless `preserve_media_with_catalognum`, an item
left with truthy media and catalognum has its media deleted and the media
row's active flag cleared. -/
def updateItem (preserve : Bool) (extraTags : TagKey → Bool) (tc : TagCompare)
    (item : Item) : TagCompare × Item :=
  let item1 := writeFields extraTags tc item
  if !preserve && optTruthy (item1 TagKey.media) && optTruthy (item1 TagKey.catalognum) then
    (updateTC tc TagKey.media { tc TagKey.media with active := false },
      fun t => if t = TagKey.media then none else item1 t)
  else (tc, item1)

/-- The `for item in task.items` loop of the update phase. -/
def updatePhase (preserve : Bool) (extraTags : TagKey → Bool) (tc : TagCompare)
    (items : List Item) : TagCompare × List Item :=
  items.foldl
    (fun acc item =>
      ((updateItem preserve extraTags acc.1 item).1,
        acc.2 ++ [(updateItem preserve extraTags acc.1 item).2]))
    (tc, [])

/-- `import_task_start` after the origin file has been located: comparison
phase, then the update phase gated on `not conflict or use_origin_on_conflict`.
Returns the final `tag_compare`, the conflict flag and the items. -/
def import_task_start_core (useOriginOnConflict preserve : Bool)
    (extraTags : TagKey → Bool) (likelies : TagKey → String)
    (ms : List (TagKey × String)) (items : List Item) :
    TagCompare × Bool × List Item :=
  let pc := processMatches extraTags likelies ms
  if !pc.2 || useOriginOnConflict then
    let ui := updatePhase preserve extraTags pc.1 items
    (ui.1, pc.2, ui.2)
  else (pc.1, pc.2, items)

/-- `match_text`: for each configured key, every stripped line whose pattern
matches yields the capture. -/
def match_text (patterns : List (TagKey × (String → Option String)))
    (lines : List String) : List (TagKey × String) :=
  patterns.flatMap (fun kp =>
    lines.filterMap (fun line => (kp.2 (pyStrip line)).map (fun v => (kp.1, v))))

/-- A parsed JSON/YAML document node (ints stand in for Python numbers). -/
inductive JValue
| null
| bool (b : Bool)
| num (n : Int)
| str (s : String)
| arr (xs : List JValue)
| obj (kvs : List (String × JValue))

/-- Python truthiness of a parsed document node. -/
def JValue.truthy : JValue → Bool
| JValue.null => false
| JValue.bool b => b
| JValue.num n => n ≠ 0
| JValue.str s => s ≠ ""
| JValue.arr xs => !xs.isEmpty
| JValue.obj kvs => !kvs.isEmpty

mutual

/-- Python `repr` of a parsed document node. -/
def pyRepr : JValue → String
| JValue.null => "None"
| JValue.bool true => "True"
| JValue.bool false => "False"
| JValue.num n => toString n
| JValue.str s => "\x27" ++ s ++ "\x27"
| JValue.arr xs => "[" ++ pyReprList xs ++ "]"
| JValue.obj kvs => "\x7b" ++ pyReprObj kvs ++ "\x7d"

/-- Comma-separated reprs of list elements. -/
def pyReprList : List JValue → String
| [] => ""
| [v] => pyRepr v
| v :: rest => pyRepr v ++ ", " ++ pyReprList rest

/-- Comma-separated reprs of dict entries. -/
def pyReprObj : List (String × JValue) → String
| [] => ""
| [kv] => "\x27" ++ kv.1 ++ "\x27: " ++ pyRepr kv.2
| kv :: rest => "\x27" ++ kv.1 ++ "\x27: " ++ pyRepr kv.2 ++ ", " ++ pyReprObj rest

end

/-- Python `str()` of a parsed document node. -/
def pyStr : JValue → String
| JValue.str s => s
| v => pyRepr v

/-- `match_json`: for each configured key, if the path expression locates any
node, yield the first located node stringified — with no truthiness filter. -/
def match_json (patterns : List (TagKey × (JValue → List JValue)))
    (data : JValue) : List (TagKey × String) :=
  patterns.filterMap (fun kp =>
    ((kp.2 data).head?).map (fun v => (kp.1, pyStr v)))

/-- `match_yaml`: like `match_json`, but a located first node that is falsy
is treated as no match. -/
def match_yaml (patterns : List (TagKey × (JValue → List JValue)))
    (data : JValue) : List (TagKey × String) :=
  patterns.filterMap (fun kp =>
    ((kp.2 data).head?).bind (fun v => if v.truthy then some (kp.1, pyStr v) else none))

/-- The three matching strategies `match_json` / `match_yaml` / `match_text`. -/
inductive MatchStrategy
| json
| yaml
| text
deriving DecidableEq

/-- The `origin_type` string: the configured choice lowercased when present,
else the origin file's suffix lowercased with its leading dot dropped. -/
def resolveOriginType : Option String → String → String
| some t, _ => pyLower t
| none, suffix => String.mk ((pyLower suffix).toList.drop 1)

/-- The `if origin_type == "json" ... elif origin_type == "yaml" ... else`
dispatch assigning `self.match_fn`. -/
def selectStrategy (originType : String) : MatchStrategy :=
  if originType = "json" then MatchStrategy.json
  else if originType = "yaml" then MatchStrategy.yaml
  else MatchStrategy.text

/-- A `tag_compare` state exhibiting a genuine conflict: some conflict field
has non-empty tagged and origin values that remain unequal after the
field-specific normalization. -/
def ConflictWitness (tc : TagCompare) : Prop :=
  ∃ k, k ∈ CONFLICT_FIELDS ∧ (tc k).tagged ≠ "" ∧ (tc k).origin ≠ "" ∧
    (if k = TagKey.catalognum
      then normalize_catno (tc k).tagged ≠ normalize_catno (tc k).origin
      else (tc k).tagged ≠ (tc k).origin)

/-! ### Helper lemmas -/

theorem takeWhile_all_eq (p : Char → Bool) (l : List Char) (h : l.all p = true) :
    l.takeWhile p = l := by
  induction l with
  | nil => rfl
  | cons a t ih =>
    simp only [List.all_cons, Bool.and_eq_true] at h
    simp [List.takeWhile_cons, h.1, ih h.2]

theorem takeWhile_append_stop (p : Char → Bool) (l₁ l₂ : List Char) (c : Char)
    (h : l₁.all p = true) (hc : p c = false) :
    (l₁ ++ c :: l₂).takeWhile p = l₁ := by
  induction l₁ with
  | nil => simp [List.takeWhile_cons, hc]
  | cons a t ih =>
    simp only [List.all_cons, Bool.and_eq_true] at h
    simp [List.takeWhile_cons, h.1, ih h.2]

theorem stepMatch_tagged (acc : TagCompare × Bool) (kv : TagKey × String) (k : TagKey) :
    ((stepMatch acc kv).1 k).tagged = (acc.1 k).tagged := by
  unfold stepMatch
  by_cases h1 : (acc.1 kv.1).origin = ""
  · by_cases hk : k = kv.1 <;> simp [h1, updateTC, hk]
  · simp [h1]

theorem stepMatch_active (acc : TagCompare × Bool) (kv : TagKey × String) (k : TagKey) :
    ((stepMatch acc kv).1 k).active = (acc.1 k).active := by
  unfold stepMatch
  by_cases h1 : (acc.1 kv.1).origin = ""
  · by_cases hk : k = kv.1 <;> simp [h1, updateTC, hk]
  · simp [h1]

theorem foldl_stepMatch_tagged (ms : List (TagKey × String)) :
    ∀ (acc : TagCompare × Bool) (k : TagKey),
      ((ms.foldl stepMatch acc).1 k).tagged = (acc.1 k).tagged := by
  induction ms with
  | nil => intro acc k; rfl
  | cons kv rest ih =>
    intro acc k
    rw [List.foldl_cons, ih, stepMatch_tagged]

theorem foldl_stepMatch_active (ms : List (TagKey × String)) :
    ∀ (acc : TagCompare × Bool) (k : TagKey),
      ((ms.foldl stepMatch acc).1 k).active = (acc.1 k).active := by
  induction ms with
  | nil => intro acc k; rfl
  | cons kv rest ih =>
    intro acc k
    rw [List.foldl_cons, ih, stepMatch_active]

theorem foldl_stepMatch_origin (ms : List (TagKey × String)) :
    ∀ (acc : TagCompare × Bool) (k : TagKey),
      ((ms.foldl stepMatch acc).1 k).origin =
        if (acc.1 k).origin = "" then storedOrigin k ms else (acc.1 k).origin := by
  induction ms with
  | nil =>
    intro acc k
    by_cases h : (acc.1 k).origin = "" <;> simp [storedOrigin, h]
  | cons kv rest ih =>
    intro acc k
    rw [List.foldl_cons, ih]
    by_cases hk : kv.1 = k
    · by_cases h1 : (acc.1 kv.1).origin = ""
      · by_cases hsv : sanitize_value kv.1 kv.2 = ""
        · simp [stepMatch, h1, updateTC, hk, hsv, storedOrigin, hk ▸ h1]
        · simp [stepMatch, h1, updateTC, hk, hsv, storedOrigin, hk ▸ h1]
      · simp [stepMatch, h1, storedOrigin, hk, hk ▸ h1]
    · have hne : ¬ k = kv.1 := fun h => hk h.symm
      by_cases h1 : (acc.1 kv.1).origin = ""
      · simp [stepMatch, h1, updateTC, hne, storedOrigin, hk]
      · simp [stepMatch, h1, storedOrigin, hk]

theorem processMatches_origin (e : TagKey → Bool) (l : TagKey → String)
    (ms : List (TagKey × String)) (k : TagKey) :
    ((processMatches e l ms).1 k).origin = storedOrigin k ms := by
  unfold processMatches
  rw [foldl_stepMatch_origin]
  simp [initTagCompare]

theorem processMatches_tagged (e : TagKey → Bool) (l : TagKey → String)
    (ms : List (TagKey × String)) (k : TagKey) :
    ((processMatches e l ms).1 k).tagged = l k := by
  unfold processMatches
  rw [foldl_stepMatch_tagged]
  rfl

theorem storedOrigin_of_no_key (key : TagKey) (ms : List (TagKey × String))
    (h : ∀ kv ∈ ms, kv.1 ≠ key) : storedOrigin key ms = "" := by
  induction ms with
  | nil => rfl
  | cons kv rest ih =>
    have hk : kv.1 ≠ key := h kv (List.mem_cons_self kv rest)
    simp only [storedOrigin, hk, false_and, if_false]
    exact ih (fun x hx => h x (List.mem_cons_of_mem kv hx))

theorem stepMatch_entry_of_ne_origin (acc : TagCompare × Bool) (kv : TagKey × String)
    (k : TagKey) (h : (acc.1 k).origin ≠ "") : (stepMatch acc kv).1 k = acc.1 k := by
  unfold stepMatch
  by_cases h1 : (acc.1 kv.1).origin = ""
  · by_cases hk : k = kv.1
    · exact absurd (hk ▸ h1) h
    · simp [h1, updateTC, hk]
  · simp [h1]

theorem stepMatch_preserves_witness (acc : TagCompare × Bool) (kv : TagKey × String)
    (h : ConflictWitness acc.1) : ConflictWitness ((stepMatch acc kv).1) := by
  obtain ⟨k, hk, ht, ho, hcmp⟩ := h
  have he : (stepMatch acc kv).1 k = acc.1 k := stepMatch_entry_of_ne_origin acc kv k ho
  exact ⟨k, hk, he ▸ ht, he ▸ ho, he ▸ hcmp⟩

theorem stepMatch_flag (acc : TagCompare × Bool) (kv : TagKey × String) :
    (stepMatch acc kv).2 =
      (acc.2 || (if (acc.1 kv.1).origin = ""
        then conflictTriggered kv.1 (acc.1 kv.1).tagged (sanitize_value kv.1 kv.2)
        else false)) := by
  unfold stepMatch
  by_cases h1 : (acc.1 kv.1).origin = "" <;> simp [h1]

theorem conflictTriggered_sound (key : TagKey) (tagged origin : String)
    (h : conflictTriggered key tagged origin = true) :
    key ∈ CONFLICT_FIELDS ∧ tagged ≠ "" ∧ origin ≠ "" ∧
      (if key = TagKey.catalognum
        then normalize_catno tagged ≠ normalize_catno origin
        else tagged ≠ origin) := by
  unfold conflictTriggered at h
  by_cases hg : key ∉ CONFLICT_FIELDS ∨ tagged = "" ∨ origin = ""
  · rw [if_pos hg] at h
    cases h
  · rw [if_neg hg] at h
    push_neg at hg
    refine ⟨hg.1, hg.2.1, hg.2.2, ?_⟩
    by_cases hc : key = TagKey.catalognum
    · rw [if_pos hc]
      simp only [hc, if_pos rfl, bne_iff_ne, ne_eq] at h
      exact h
    · rw [if_neg hc]
      simp only [hc, if_false, bne_iff_ne, ne_eq] at h
      exact h

theorem stepMatch_spark (acc : TagCompare × Bool) (kv : TagKey × String)
    (h2 : acc.2 = false) (h : (stepMatch acc kv).2 = true) :
    ConflictWitness ((stepMatch acc kv).1) := by
  rw [stepMatch_flag, h2, Bool.false_or] at h
  by_cases h1 : (acc.1 kv.1).origin = ""
  · rw [if_pos h1] at h
    have hc := conflictTriggered_sound kv.1 (acc.1 kv.1).tagged (sanitize_value kv.1 kv.2) h
    have he : (stepMatch acc kv).1 kv.1 =
        { acc.1 kv.1 with origin := sanitize_value kv.1 kv.2 } := by
      unfold stepMatch
      simp [h1, updateTC]
    exact ⟨kv.1, hc.1, by rw [he]; exact hc.2.1, by rw [he]; exact hc.2.2.1,
      by rw [he]; exact hc.2.2.2⟩
  · rw [if_neg h1] at h
    cases h

theorem foldl_preserves_witness (ms : List (TagKey × String)) :
    ∀ (acc : TagCompare × Bool), ConflictWitness acc.1 →
      ConflictWitness ((ms.foldl stepMatch acc).1) := by
  induction ms with
  | nil => intro acc h; exact h
  | cons kv rest ih =>
    intro acc h
    rw [List.foldl_cons]
    exact ih (stepMatch acc kv) (stepMatch_preserves_witness acc kv h)

theorem foldl_conflict_sound (ms : List (TagKey × String)) :
    ∀ (acc : TagCompare × Bool), (ms.foldl stepMatch acc).2 = true →
      acc.2 = true ∨ ConflictWitness ((ms.foldl stepMatch acc).1) := by
  induction ms with
  | nil => intro acc h; exact Or.inl h
  | cons kv rest ih =>
    intro acc h
    rw [List.foldl_cons] at h ⊢
    rcases ih (stepMatch acc kv) h with h' | hw
    · by_cases h2 : acc.2 = true
      · exact Or.inl h2
      · exact Or.inr (foldl_preserves_witness rest (stepMatch acc kv)
          (stepMatch_spark acc kv (Bool.eq_false_iff.mpr h2) h'))
    · exact Or.inr hw

theorem processMatches_conflict_sound (e : TagKey → Bool) (l : TagKey → String)
    (ms : List (TagKey × String)) (h : (processMatches e l ms).2 = true) :
    ConflictWitness ((processMatches e l ms).1) := by
  unfold processMatches at *
  rcases foldl_conflict_sound ms (initTagCompare e l, false) h with h' | hw
  · cases h'
  · exact hw

theorem nodup_keys_eq {α β : Type _} {l : List (α × β)} (h : (l.map Prod.fst).Nodup)
    {a : α} {b b' : β} (h1 : (a, b) ∈ l) (h2 : (a, b') ∈ l) : b = b' := by
  induction l with
  | nil => cases h1
  | cons hd tl ih =>
    rw [List.map_cons, List.nodup_cons] at h
    rcases List.mem_cons.mp h1 with e1 | m1
    · rcases List.mem_cons.mp h2 with e2 | m2
      · rw [← e1] at e2
        simp only [Prod.mk.injEq, true_and] at e2
        exact e2.symm
      · exact absurd (List.mem_map.mpr ⟨(a, b'), m2, by rw [← e1]⟩) h.1
    · rcases List.mem_cons.mp h2 with e2 | m2
      · exact absurd (List.mem_map.mpr ⟨(a, b), m1, by rw [← e2]⟩) h.1
      · exact ih h.2 m1 m2

theorem match_yaml_no_key (patterns : List (TagKey × (JValue → List JValue)))
    (data : JValue) (key : TagKey) (f : JValue → List JValue) (v : JValue)
    (rest : List JValue) (hnd : (patterns.map Prod.fst).Nodup)
    (hmem : (key, f) ∈ patterns) (hf : f data = v :: rest)
    (hv : v.truthy = false) :
    ∀ kv ∈ match_yaml patterns data, kv.1 ≠ key := by
  intro kv hkv hkey
  unfold match_yaml at hkv
  rw [List.mem_filterMap] at hkv
  obtain ⟨kp, hkp, heq⟩ := hkv
  rcases hq : kp.2 data with _ | ⟨w, tl⟩
  · rw [hq] at heq
    cases heq
  · rw [hq] at heq
    simp only [List.head?_cons, Option.some_bind] at heq
    by_cases htv : w.truthy
    · rw [if_pos htv] at heq
      have hpair : (kp.1, pyStr w) = kv := Option.some.inj heq
      have hk1 : kp.1 = key := by rw [← hkey, ← hpair]
      have hkp2 : (key, kp.2) ∈ patterns := by
        rw [← hk1]
        exact hkp
      have hfe : kp.2 = f := nodup_keys_eq hnd hkp2 hmem
      rw [hfe, hf] at hq
      have hw : w = v := (List.cons.inj hq).1.symm
      rw [hw] at htv
      exact absurd htv (by rw [hv]; exact Bool.false_ne_true)
    · rw [if_neg htv] at heq
      cases heq

/-! ### Claim theorems -/

/-- Claim C1: if a conflict was detected (`conflict=true`) and
`use_origin_on_conflict` is false, the update phase is skipped entirely:
the task's items are returned unchanged — no origin value written, no media
deleted, even for non-conflicting active fields. -/
theorem update_gating_no_mutation (preserve : Bool) (e : TagKey → Bool)
    (l : TagKey → String) (ms : List (TagKey × String)) (items : List Item)
    (h : (processMatches e l ms).2 = true) :
    (import_task_start_core false preserve e l ms items).2.2 = items := by
  unfold import_task_start_core
  simp [h]

theorem update_gating_no_mutation_witness :
    (import_task_start_core false false (fun _ => true)
        (fun k => if k = TagKey.catalognum then "ABC1" else "")
        [(TagKey.catalognum, "XYZ2")] [fun _ => none]).2.2 = [fun _ => none] :=
  update_gating_no_mutation false (fun _ => true)
    (fun k => if k = TagKey.catalognum then "ABC1" else "")
    [(TagKey.catalognum, "XYZ2")] [fun _ => none] (by decide)

/-- Claim C2: the conflict flag is set to true only if some conflict field
(`catalognum` or `media`) has a non-empty tagged value and a non-empty stored
(sanitized) origin value that are unequal after the field-specific
normalization (catalog-number normalization for `catalognum`, identity for
`media`). -/
theorem conflict_flag_sound (e : TagKey → Bool) (l : TagKey → String)
    (ms : List (TagKey × String)) (h : (processMatches e l ms).2 = true) :
    ∃ k, k ∈ CONFLICT_FIELDS ∧
      ((processMatches e l ms).1 k).tagged ≠ "" ∧
      ((processMatches e l ms).1 k).origin ≠ "" ∧
      (if k = TagKey.catalognum
        then normalize_catno ((processMatches e l ms).1 k).tagged ≠
          normalize_catno ((processMatches e l ms).1 k).origin
        else ((processMatches e l ms).1 k).tagged ≠
          ((processMatches e l ms).1 k).origin) :=
  processMatches_conflict_sound e l ms h

theorem conflict_flag_sound_witness :
    ∃ k, k ∈ CONFLICT_FIELDS ∧
      ((processMatches (fun _ => true)
        (fun k => if k = TagKey.catalognum then "ABC1" else "")
        [(TagKey.catalognum, "XYZ2")]).1 k).tagged ≠ "" ∧
      ((processMatches (fun _ => true)
        (fun k => if k = TagKey.catalognum then "ABC1" else "")
        [(TagKey.catalognum, "XYZ2")]).1 k).origin ≠ "" ∧
      (if k = TagKey.catalognum
        then normalize_catno ((processMatches (fun _ => true)
          (fun k => if k = TagKey.catalognum then "ABC1" else "")
          [(TagKey.catalognum, "XYZ2")]).1 k).tagged ≠
          normalize_catno ((processMatches (fun _ => true)
          (fun k => if k = TagKey.catalognum then "ABC1" else "")
          [(TagKey.catalognum, "XYZ2")]).1 k).origin
        else ((processMatches (fun _ => true)
          (fun k => if k = TagKey.catalognum then "ABC1" else "")
          [(TagKey.catalognum, "XYZ2")]).1 k).tagged ≠
          ((processMatches (fun _ => true)
          (fun k => if k = TagKey.catalognum then "ABC1" else "")
          [(TagKey.catalognum, "XYZ2")]).1 k).origin) :=
  conflict_flag_sound (fun _ => true)
    (fun k => if k = TagKey.catalognum then "ABC1" else "")
    [(TagKey.catalognum, "XYZ2")] (by decide)

/-- Claim C3 counterexample: with no explicit `origin_type`, a ".yml" origin
file resolves to origin type "yml", which selects the text strategy, not the
YAML strategy the claim promises. -/
theorem yml_selects_text :
    selectStrategy (resolveOriginType none ".yml") = MatchStrategy.text ∧
    MatchStrategy.text ≠ MatchStrategy.yaml := by
  decide

/-- Claim C3 (amended): an explicit `origin_type` wins (it is lowercased and
used as is); otherwise the origin type is the file suffix, lowercased,
without its leading dot — ".json" selects the JSON strategy, ".yaml" the
YAML strategy, and every other suffix, including ".yml", the text
strategy. -/
theorem origin_type_resolution (t suffix : String)
    (h1 : resolveOriginType none suffix ≠ "json")
    (h2 : resolveOriginType none suffix ≠ "yaml") :
    resolveOriginType (some t) suffix = pyLower t ∧
    selectStrategy "json" = MatchStrategy.json ∧
    selectStrategy "yaml" = MatchStrategy.yaml ∧
    selectStrategy "text" = MatchStrategy.text ∧
    selectStrategy (resolveOriginType none ".json") = MatchStrategy.json ∧
    selectStrategy (resolveOriginType none ".yaml") = MatchStrategy.yaml ∧
    selectStrategy (resolveOriginType none ".yml") = MatchStrategy.text ∧
    selectStrategy (resolveOriginType none suffix) = MatchStrategy.text := by
  refine ⟨rfl, by decide, by decide, by decide, by decide, by decide, by decide, ?_⟩
  unfold selectStrategy
  rw [if_neg h1, if_neg h2]

theorem origin_type_resolution_witness :
    resolveOriginType (some "TEXT") ".txt" = pyLower "TEXT" ∧
    selectStrategy "json" = MatchStrategy.json ∧
    selectStrategy "yaml" = MatchStrategy.yaml ∧
    selectStrategy "text" = MatchStrategy.text ∧
    selectStrategy (resolveOriginType none ".json") = MatchStrategy.json ∧
    selectStrategy (resolveOriginType none ".yaml") = MatchStrategy.yaml ∧
    selectStrategy (resolveOriginType none ".yml") = MatchStrategy.text ∧
    selectStrategy (resolveOriginType none ".txt") = MatchStrategy.text :=
  origin_type_resolution "TEXT" ".txt" (by decide) (by decide)

/-- Claim C4 counterexample: with a text pattern for the `year` field whose
capture is the whole line, and a document of the two lines "0" and "1999"
(both matching), the stored origin value is "1999" — taken from the second
line, because the first capture "0" sanitizes to the empty string — not the
first line's capture. -/
theorem first_match_counterexample :
    ((processMatches (fun _ => true) (fun _ => "")
        (match_text [(TagKey.year, fun line => some line)] ["0", "1999"])).1
        TagKey.year).origin = "1999" ∧
    ("1999" : String) ≠ "0" ∧
    ("1999" : String) ≠ sanitize_value TagKey.year "0" := by
  decide

/-- Claim C4 (amended): for every field, the origin value stored in the
comparison entry is the sanitized value of the first match whose sanitized
value is non-empty (`storedOrigin`); once the slot holds a non-empty value
all later matches for the field are ignored, but a match whose value
sanitizes to empty leaves the slot open for later matches. -/
theorem stored_origin_first_nonempty (e : TagKey → Bool) (l : TagKey → String)
    (ms : List (TagKey × String)) (k : TagKey) :
    ((processMatches e l ms).1 k).origin = storedOrigin k ms :=
  processMatches_origin e l ms k

/-- Claim C5: `sanitize_value` behavior — media "WEB" becomes "Digital
Media" and other media values are unchanged; catalognum and label are split
on ',' or '/', keeping the first segment with surrounding whitespace
trimmed; year "0" becomes empty; all other keys are the identity. -/
theorem sanitize_value_spec (v a b : String) (sep : Char)
    (ha : a.toList.all (fun c => !(isSep c)) = true) (hsep : isSep sep = true) :
    sanitize_value TagKey.media "WEB" = "Digital Media" ∧
    (v ≠ "WEB" → sanitize_value TagKey.media v = v) ∧
    sanitize_value TagKey.catalognum a = pyStrip a ∧
    sanitize_value TagKey.label a = pyStrip a ∧
    sanitize_value TagKey.catalognum (a ++ String.mk [sep] ++ b) = pyStrip a ∧
    sanitize_value TagKey.label (a ++ String.mk [sep] ++ b) = pyStrip a ∧
    sanitize_value TagKey.year "0" = "" ∧
    (v ≠ "0" → sanitize_value TagKey.year v = v) ∧
    sanitize_value TagKey.country v = v ∧
    sanitize_value TagKey.albumdisambig v = v := by
  have htl : (a ++ String.mk [sep] ++ b).toList = a.toList ++ sep :: b.toList := by
    simp [String.toList, String.data_append]
  have hstop : (fun c => !(isSep c)) sep = false := by simp [hsep]
  have hw : (a ++ String.mk [sep] ++ b).toList.takeWhile (fun c => !(isSep c)) = a.toList := by
    rw [htl]
    exact takeWhile_append_stop _ _ _ _ ha hstop
  have hall : a.toList.takeWhile (fun c => !(isSep c)) = a.toList :=
    takeWhile_all_eq _ _ ha
  refine ⟨by decide, ?_, ?_, ?_, ?_, ?_, by decide, ?_, ?_, ?_⟩
  · intro hv
    simp [sanitize_value, hv]
  · unfold sanitize_value
    rw [hall]
    simp
  · unfold sanitize_value
    rw [hall]
    simp
  · unfold sanitize_value
    rw [hw]
    simp
  · unfold sanitize_value
    rw [hw]
    simp
  · intro hv
    simp [sanitize_value, hv]
  · simp [sanitize_value]
  · simp [sanitize_value]

theorem sanitize_value_spec_witness :
    sanitize_value TagKey.media "WEB" = "Digital Media" ∧
    ("CD" ≠ "WEB" → sanitize_value TagKey.media "CD" = "CD") ∧
    sanitize_value TagKey.catalognum " AB 1 " = pyStrip " AB 1 " ∧
    sanitize_value TagKey.label " AB 1 " = pyStrip " AB 1 " ∧
    sanitize_value TagKey.catalognum (" AB 1 " ++ String.mk [','] ++ "XY") =
      pyStrip " AB 1 " ∧
    sanitize_value TagKey.label (" AB 1 " ++ String.mk [','] ++ "XY") =
      pyStrip " AB 1 " ∧
    sanitize_value TagKey.year "0" = "" ∧
    ("CD" ≠ "0" → sanitize_value TagKey.year "CD" = "CD") ∧
    sanitize_value TagKey.country "CD" = "CD" ∧
    sanitize_value TagKey.albumdisambig "CD" = "CD" :=
  sanitize_value_spec "CD" " AB 1 " "XY" ',' (by decide) (by decide)

/-- Claim C6: when updates are applied with `preserve_media_with_catalognum`
false, an item that ends up with truthy media and truthy catalognum has its
media field deleted and the media comparison row's active flag cleared; with
the option true the written item is kept as is (media retained). -/
theorem media_removal_heuristic (e : TagKey → Bool) (tc : TagCompare) (item : Item)
    (h1 : optTruthy ((writeFields e tc item) TagKey.media) = true)
    (h2 : optTruthy ((writeFields e tc item) TagKey.catalognum) = true) :
    (updateItem false e tc item).2 TagKey.media = none ∧
    ((updateItem false e tc item).1 TagKey.media).active = false ∧
    (updateItem true e tc item).2 = writeFields e tc item := by
  refine ⟨?_, ?_, ?_⟩
  · unfold updateItem
    simp [h1, h2]
  · unfold updateItem
    simp [h1, h2, updateTC]
  · unfold updateItem
    simp

theorem media_removal_heuristic_witness :
    (updateItem false (fun _ => false) (initTagCompare (fun _ => false) (fun _ => ""))
        (fun t => if t = TagKey.media then some (FieldVal.str "CD")
          else if t = TagKey.catalognum then some (FieldVal.str "ABC1") else none)).2
      TagKey.media = none ∧
    ((updateItem false (fun _ => false) (initTagCompare (fun _ => false) (fun _ => ""))
        (fun t => if t = TagKey.media then some (FieldVal.str "CD")
          else if t = TagKey.catalognum then some (FieldVal.str "ABC1") else none)).1
      TagKey.media).active = false ∧
    (updateItem true (fun _ => false) (initTagCompare (fun _ => false) (fun _ => ""))
        (fun t => if t = TagKey.media then some (FieldVal.str "CD")
          else if t = TagKey.catalognum then some (FieldVal.str "ABC1") else none)).2 =
      writeFields (fun _ => false) (initTagCompare (fun _ => false) (fun _ => ""))
        (fun t => if t = TagKey.media then some (FieldVal.str "CD")
          else if t = TagKey.catalognum then some (FieldVal.str "ABC1") else none) :=
  media_removal_heuristic (fun _ => false) (initTagCompare (fun _ => false) (fun _ => ""))
    (fun t => if t = TagKey.media then some (FieldVal.str "CD")
      else if t = TagKey.catalognum then some (FieldVal.str "ABC1") else none)
    (by decide) (by decide)

/-- Claim C7: catalog-number normalization uppercases and removes all spaces
and hyphens — "CAT-001" and "cat 001" both normalize to "CAT001" — and two
catalog numbers with equal normalizations never trigger a conflict. -/
theorem normalize_catno_spec (t o : String) (h : normalize_catno t = normalize_catno o) :
    normalize_catno "CAT-001" = normalize_catno "cat 001" ∧
    normalize_catno "CAT-001" = "CAT001" ∧
    conflictTriggered TagKey.catalognum t o = false := by
  refine ⟨by decide, by decide, ?_⟩
  unfold conflictTriggered
  by_cases hg : TagKey.catalognum ∉ CONFLICT_FIELDS ∨ t = "" ∨ o = ""
  · rw [if_pos hg]
  · rw [if_neg hg]
    simp [h]

theorem normalize_catno_spec_witness :
    normalize_catno "CAT-001" = normalize_catno "cat 001" ∧
    normalize_catno "CAT-001" = "CAT001" ∧
    conflictTriggered TagKey.catalognum "AB-1" "ab 1" = false :=
  normalize_catno_spec "AB-1" "ab 1" (by decide)

/-- Claim C8: in the YAML strategy, a value located by a field's path
expression that is empty/falsy is treated as no match: no pair for that
field is produced, and the field's origin entry stays empty. -/
theorem yaml_falsy_no_match (patterns : List (TagKey × (JValue → List JValue)))
    (data : JValue) (key : TagKey) (f : JValue → List JValue) (v : JValue)
    (rest : List JValue) (s : String) (e : TagKey → Bool) (l : TagKey → String)
    (hnd : (patterns.map Prod.fst).Nodup) (hmem : (key, f) ∈ patterns)
    (hf : f data = v :: rest) (hv : v.truthy = false) :
    (key, s) ∉ match_yaml patterns data ∧
    ((processMatches e l (match_yaml patterns data)).1 key).origin = "" := by
  have haux := match_yaml_no_key patterns data key f v rest hnd hmem hf hv
  constructor
  · intro hmem'
    exact haux (key, s) hmem' rfl
  · rw [processMatches_origin]
    exact storedOrigin_of_no_key key _ haux

theorem yaml_falsy_no_match_witness :
    (TagKey.media, "x") ∉ match_yaml [(TagKey.media, fun d => [d])] (JValue.str "") ∧
    ((processMatches (fun _ => true) (fun _ => "")
        (match_yaml [(TagKey.media, fun d => [d])] (JValue.str ""))).1
      TagKey.media).origin = "" :=
  yaml_falsy_no_match [(TagKey.media, fun d => [d])] (JValue.str "") TagKey.media
    (fun d => [d]) (JValue.str "") [] "x" (fun _ => true) (fun _ => "")
    (by simp) (by simp) rfl rfl

/-- Claim C9: whenever the field-writing loop runs, every `extra_tags` field
of every item is overwritten with the stored origin value — including the
empty string when no pattern matched or the match sanitized to empty — and a
non-empty year origin is coerced to an int when all digits, else replaced by
the empty string. -/
theorem write_active_fields (e : TagKey → Bool) (tc : TagCompare) (item : Item)
    (tag : TagKey) (h : e tag = true) :
    (tag ≠ TagKey.year → writeFields e tc item tag = some (FieldVal.str (tc tag).origin)) ∧
    ((tc tag).origin = "" → writeFields e tc item tag = some (FieldVal.str "")) ∧
    (tag = TagKey.year → isdigit (tc tag).origin = true → (tc tag).origin ≠ "" →
      writeFields e tc item tag = some (FieldVal.int (pyInt (tc tag).origin))) ∧
    (tag = TagKey.year → isdigit (tc tag).origin = false → (tc tag).origin ≠ "" →
      writeFields e tc item tag = some (FieldVal.str "")) := by
  refine ⟨?_, ?_, ?_, ?_⟩
  · intro hy
    simp [writeFields, h, hy]
  · intro ho
    simp [writeFields, h, ho]
  · intro hy hd ho
    subst hy
    simp [writeFields, h, hd, ho]
  · intro hy hd ho
    subst hy
    simp [writeFields, h, hd, ho]

theorem write_active_fields_witness :
    (TagKey.country ≠ TagKey.year →
      writeFields (fun _ => true) (initTagCompare (fun _ => true) (fun _ => "tag"))
        (fun _ => none) TagKey.country =
        some (FieldVal.str ((initTagCompare (fun _ => true) (fun _ => "tag"))
          TagKey.country).origin)) ∧
    (((initTagCompare (fun _ => true) (fun _ => "tag")) TagKey.country).origin = "" →
      writeFields (fun _ => true) (initTagCompare (fun _ => true) (fun _ => "tag"))
        (fun _ => none) TagKey.country = some (FieldVal.str "")) ∧
    (TagKey.country = TagKey.year →
      isdigit ((initTagCompare (fun _ => true) (fun _ => "tag")) TagKey.country).origin = true →
      ((initTagCompare (fun _ => true) (fun _ => "tag")) TagKey.country).origin ≠ "" →
      writeFields (fun _ => true) (initTagCompare (fun _ => true) (fun _ => "tag"))
        (fun _ => none) TagKey.country =
        some (FieldVal.int (pyInt ((initTagCompare (fun _ => true) (fun _ => "tag"))
          TagKey.country).origin))) ∧
    (TagKey.country = TagKey.year →
      isdigit ((initTagCompare (fun _ => true) (fun _ => "tag")) TagKey.country).origin = false →
      ((initTagCompare (fun _ => true) (fun _ => "tag")) TagKey.country).origin ≠ "" →
      writeFields (fun _ => true) (initTagCompare (fun _ => true) (fun _ => "tag"))
        (fun _ => none) TagKey.country = some (FieldVal.str "")) :=
  write_active_fields (fun _ => true) (initTagCompare (fun _ => true) (fun _ => "tag"))
    (fun _ => none) TagKey.country rfl

/-- Claim C10: in the JSON strategy, any located node counts as a match even
when empty/falsy; the node is stringified as-is, a JSON null yielding "None"
and an empty string yielding an empty origin match. -/
theorem json_counts_falsy_match (patterns : List (TagKey × (JValue → List JValue)))
    (data : JValue) (key : TagKey) (f : JValue → List JValue) (v : JValue)
    (rest : List JValue) (hmem : (key, f) ∈ patterns) (hf : f data = v :: rest) :
    (key, pyStr v) ∈ match_json patterns data ∧
    pyStr JValue.null = "None" ∧
    pyStr (JValue.str "") = "" := by
  refine ⟨?_, rfl, rfl⟩
  unfold match_json
  rw [List.mem_filterMap]
  refine ⟨(key, f), hmem, ?_⟩
  show ((f data).head?).map (fun v => (key, pyStr v)) = some (key, pyStr v)
  rw [hf]
  rfl

theorem json_counts_falsy_match_witness :
    (TagKey.media, pyStr JValue.null) ∈
      match_json [(TagKey.media, fun _ => [JValue.null])] JValue.null ∧
    pyStr JValue.null = "None" ∧
    pyStr (JValue.str "") = "" :=
  json_counts_falsy_match [(TagKey.media, fun _ => [JValue.null])] JValue.null
    TagKey.media (fun _ => [JValue.null]) JValue.null [] (by simp) rfl
